import Mathlib

/-!
Shallow embedding of `bwenv.py`, a CLI tool that synchronizes key/value
secrets between a Bitwarden-style vault (driven through the external `bw`
binary) and `.env`-style files.

The external `bw` subprocess is modelled by a `Backend` record: for each
kind of invocation it gives the exit status (`...RC`) and — for the calls
whose standard output the program parses — the already-JSON-parsed output
(`Option` is `none` when the output is not valid JSON). The `encode`
subcommand is an opaque pass-through transform (its output is fed verbatim
to `edit`/`create`), so the mutation actions submitted to the vault are
recorded at the level of the object being encoded, in an `Action` trace.

Python `dict`s are modelled as association lists in insertion order;
`dictOfList` reproduces python's dict-construction semantics (a duplicate
key keeps its first position and takes the last value). Python's
`str.strip()` is modelled by `pyStrip` over the exact character set of
python's `str.isspace()` (ASCII whitespace, the information separators
U+001C-U+001F, NEL, NBSP, and the Unicode space/line/paragraph
separators).
-/

set_option autoImplicit false

namespace BwEnv

/-- A field of a vault item: the JSON object `{"name": .., "value": .., "type": ..}`. -/
structure Field where
  name : String
  value : String
  type : Nat
deriving DecidableEq, Repr

/-- A vault item as returned by `bw list items` (the attributes `bwenv.py` reads,
plus the rest of the object which `update_values` passes through unchanged is
captured by keeping the whole structure and replacing only `fields`). -/
structure Item where
  id : String
  name : String
  folderId : String
  type : Nat
  fields : List Field
deriving DecidableEq, Repr

/-- A folder as returned by `bw list folders`. -/
structure Folder where
  id : String
  name : String
deriving DecidableEq, Repr

/-- The nested `{"type": 0}` object under the `secureNote` key of a create payload. -/
structure SecureNote where
  type : Nat
deriving DecidableEq, Repr

/-- The item object literal built by `BW.set_values` for the create branch
(`bwenv.py` lines 75-84): exactly the keys `secureNote`, `object`, `folderId`,
`type`, `name`, `fields`. -/
structure NewItem where
  secureNote : SecureNote
  object : String
  folderId : String
  type : Nat
  name : String
  fields : List Field
deriving DecidableEq, Repr

/-- Failures of the python code that surface as exceptions:
`subprocessFailure` is `CalledProcessError` from `check_returncode()`,
`malformedOutput` is a `json.loads` failure on the subprocess output,
`ambiguousResult n` is the `Exception("invalid search should be unique {n}")`
raised when a search returns `n ≠ 1` results. -/
inductive BWError where
  | subprocessFailure : BWError
  | malformedOutput : BWError
  | ambiguousResult : Nat → BWError
deriving DecidableEq, Repr

/-- The external `bw` binary, as observed by the program: exit status and parsed
standard output of each invocation kind. `listFolders...` takes the search
string; `listItems...` takes the folder id and the search string. The exit
statuses of `encode`, `edit item` and `create item` are recorded although the
python code never inspects them (`BW.encode`, `BW.update_values` and
`BW.set_values` call `self.exec(...)` on them without `check_returncode()`). -/
structure Backend where
  listFoldersRC : String → Nat
  listFoldersOut : String → Option (List Folder)
  listItemsRC : String → String → Nat
  listItemsOut : String → String → Option (List Item)
  encodeRC : Nat
  encodeOut : String → String
  editRC : Nat
  createRC : Nat

/-- A vault mutation submitted over the subprocess boundary. The payload is
recorded as the object handed to `encode` (an opaque pass-through transform)
whose output is piped to the `edit`/`create` subcommand. -/
inductive Action where
  | edit : String → Item → Action
  | create : NewItem → Action
deriving DecidableEq, Repr

/-- The `BW` class state: session key and configured folder id
(`self._key`, `self._folder_id`). -/
structure BW where
  key : String
  folder_id : String
deriving DecidableEq, Repr

/-- Python dict insertion: assigning to an existing key keeps its position and
replaces the value, assigning a fresh key appends. -/
def dictInsert (d : List (String × String)) (k v : String) : List (String × String) :=
  if d.any (fun p => p.1 = k) then
    d.map (fun p => if p.1 = k then (k, v) else p)
  else
    d ++ [(k, v)]

/-- Build a python dict (insertion-ordered association list) from a sequence of
key/value pairs; on duplicate keys the last value wins at the first position. -/
def dictOfList (l : List (String × String)) : List (String × String) :=
  l.foldl (fun d p => dictInsert d p.1 p.2) []

/-- The characters stripped by python's `str.strip()`: exactly those for which
python's `str.isspace()` is true, i.e. the code points 09-0D (tab, LF,
vertical tab, form feed, CR), 1C-1F (information separators), 20 (space),
85 (next line), A0 (no-break space), 1680 (ogham space mark), 2000-200A
(typographic spaces), 2028 (line separator), 2029 (paragraph separator),
202F (narrow no-break space), 205F (medium mathematical space) and 3000
(ideographic space). -/
def pyIsSpace (c : Char) : Bool :=
  let n := c.toNat
  (0x9 ≤ n && n ≤ 0xD) || (0x1C ≤ n && n ≤ 0x1F) || n = 0x20 || n = 0x85 ||
    n = 0xA0 || n = 0x1680 || (0x2000 ≤ n && n ≤ 0x200A) || n = 0x2028 ||
    n = 0x2029 || n = 0x202F || n = 0x205F || n = 0x3000

/-- `str.strip()` on a character list: remove trailing then leading whitespace. -/
def pyStripL (l : List Char) : List Char :=
  ((l.reverse.dropWhile pyIsSpace).reverse).dropWhile pyIsSpace

/-- Python's `s.strip()`. -/
def pyStrip (s : String) : String :=
  String.mk (pyStripL s.toList)

/-- `p.split("=", maxsplit=1)` restricted to the information the program uses:
`none` when the line has no `=` (so that indexing `[1]` raises `IndexError`),
otherwise the text before and after the first `=`. -/
def splitEq : List Char → Option (List Char × List Char)
  | [] => none
  | c :: cs =>
    if c = '=' then some ([], cs)
    else
      match splitEq cs with
      | none => none
      | some (l, r) => some (c :: l, r)

/-- One line of `set_bw`'s dict comprehension (`bwenv.py` lines 101-103):
key is `p.split("=", 1)[0]`, value is `p.split("=", 1)[1].strip()`;
`none` models the `IndexError` when the line has no `=`. -/
def parseLine (p : String) : Option (String × String) :=
  match splitEq p.toList with
  | none => none
  | some (l, r) => some (String.mk l, pyStrip (String.mk r))

/-- Parse every line, failing (exception) if any line fails. -/
def parseAll : List String → Option (List (String × String))
  | [] => some []
  | p :: ps =>
    match parseLine p, parseAll ps with
    | some kv, some rest => some (kv :: rest)
    | _, _ => none

/-- The dict comprehension of `set_bw`: parse each line and build the dict. -/
def parseLines (lines : List String) : Option (List (String × String)) :=
  (parseAll lines).map dictOfList

/-- The line list built by `get_bw` (`bwenv.py` line 109):
one string `"key=value\n"` per entry, in mapping order. -/
def formatLines (values : List (String × String)) : List String :=
  values.map (fun kv => kv.1 ++ "=" ++ kv.2 ++ "\n")

/-- The field list literal of `update_values`/`set_values`
(`bwenv.py` lines 65 and 83): one `{"name": key, "value": val, "type": 0}`
per entry, in mapping order. -/
def toFieldList (values : List (String × String)) : List Field :=
  values.map (fun kv => { name := kv.1, value := kv.2, type := 0 })

/-- The dict comprehension of `get_values` (`bwenv.py` line 45):
`{ field['name']: field['value'] for field in item["fields"] }`. -/
def toMapping (fields : List Field) : List (String × String) :=
  dictOfList (fields.map (fun f => (f.name, f.value)))

/-- `BW.get_folder`: run `bw list folders --search name`, `check_returncode()`,
`json.loads` the output, require exactly one match, return it. -/
def BW.get_folder (bw : BW) (be : Backend) (name : String) : Except BWError Folder :=
  if be.listFoldersRC name ≠ 0 then .error .subprocessFailure
  else
    match be.listFoldersOut name with
    | none => .error .malformedOutput
    | some items =>
      match items with
      | [f] => .ok f
      | _ => .error (.ambiguousResult items.length)

/-- `BW.get_item`: run `bw list items --folderid self._folder_id --search name`,
`check_returncode()`, `json.loads` the output, require exactly one match,
return it. -/
def BW.get_item (bw : BW) (be : Backend) (name : String) : Except BWError Item :=
  if be.listItemsRC bw.folder_id name ≠ 0 then .error .subprocessFailure
  else
    match be.listItemsOut bw.folder_id name with
    | none => .error .malformedOutput
    | some items =>
      match items with
      | [i] => .ok i
      | _ => .error (.ambiguousResult items.length)

/-- `BW.get_values`: `get_item` then project the fields to a dict. -/
def BW.get_values (bw : BW) (be : Backend) (name : String) :
    Except BWError (List (String × String)) :=
  match bw.get_item be name with
  | .error e => .error e
  | .ok item => .ok (toMapping item.fields)

/-- `BW.exists`: `get_item` inside `try`, `True` on success, `False` on any
exception. -/
def BW.exists (bw : BW) (be : Backend) (name : String) : Bool :=
  match bw.get_item be name with
  | .ok _ => true
  | .error _ => false

/-- `BW.encode`: pipe the serialized object into `bw encode` and return its
standard output. The exit status (`be.encodeRC`) is never checked: the stdout
is returned even when the subprocess failed. -/
def BW.encode (bw : BW) (be : Backend) (line : String) : String :=
  be.encodeOut line

/-- `BW.update_values`: fetch the item, replace its `fields` entry with the
mapping (everything else preserved), encode it and submit `bw edit item <id>`.
The exit statuses of the `encode` and `edit` invocations are not checked. -/
def BW.update_values (bw : BW) (be : Backend) (name : String)
    (values : List (String × String)) : Except BWError (List Action) :=
  match bw.get_item be name with
  | .error e => .error e
  | .ok item =>
    let item' := { item with fields := toFieldList values }
    .ok [Action.edit item'.id item']

/-- `BW.set_values`: if `exists(name)` then `update_values`, otherwise build the
secure-note item literal and submit `bw create item`. The exit statuses of the
`encode` and `create` invocations are not checked. -/
def BW.set_values (bw : BW) (be : Backend) (name : String)
    (values : List (String × String)) : Except BWError (List Action) :=
  if bw.exists be name then bw.update_values be name values
  else
    .ok [Action.create
      { secureNote := { type := 0 }
        object := "item"
        folderId := bw.folder_id
        type := 2
        name := name
        fields := toFieldList values }]

/-- The write performed by `get_bw` on success: either the lines written to
standard output, or the file (opened with mode "wt", i.e. created/truncated)
and the lines written to it. -/
inductive Output where
  | stdout : List String → Output
  | file : String → List String → Output
deriving DecidableEq, Repr

/-- The `get` verb body (`bwenv.py` lines 107-115): read the values, format the
lines, then write them to stdout (`-`) or to the named file. The output target
is only opened after `get_values` has succeeded, so on failure no write occurs
and a named file is neither created nor truncated. -/
def get_bw (bw : BW) (be : Backend) (itemname filename : String) :
    Except BWError Output :=
  match bw.get_values be itemname with
  | .error e => .error e
  | .ok values =>
    let lines := formatLines values
    if filename = "-" then .ok (.stdout lines) else .ok (.file filename lines)

/-- The `set` verb body (`bwenv.py` lines 94-105) on an already-read line list:
parse the lines to a dict (exception when a line has no `=`), then
`set_values`. -/
def set_bw (bw : BW) (be : Backend) (itemname : String) (lines : List String) :
    Option (Except BWError (List Action)) :=
  match parseLines lines with
  | none => none
  | some values => some (bw.set_values be itemname values)

/-! ### Helper lemmas -/

theorem str_toList_append (a b : String) : (a ++ b).toList = a.toList ++ b.toList := by
  cases a; cases b; rfl

theorem str_ext (a b : String) (h : a.toList = b.toList) : a = b := by
  cases a; cases b; exact congrArg String.mk h

theorem str_append_assoc (a b c : String) : a ++ b ++ c = a ++ (b ++ c) := by
  apply str_ext
  rw [str_toList_append, str_toList_append, str_toList_append, str_toList_append,
    List.append_assoc]

theorem dictInsert_of_not_mem (d : List (String × String)) (k v : String)
    (h : k ∉ d.map Prod.fst) : dictInsert d k v = d ++ [(k, v)] := by
  unfold dictInsert
  rw [if_neg]
  intro hc
  rw [List.any_eq_true] at hc
  obtain ⟨p, hp, he⟩ := hc
  exact h (List.mem_map.mpr ⟨p, hp, by simpa using he⟩)

theorem foldl_dictInsert_eq_append (l : List (String × String)) :
    ∀ acc : List (String × String), (((acc ++ l).map Prod.fst).Nodup) →
      l.foldl (fun d p => dictInsert d p.1 p.2) acc = acc ++ l := by
  induction l with
  | nil => intro acc _; simp
  | cons p ps ih =>
    intro acc h
    have hk : p.1 ∉ acc.map Prod.fst := by
      rw [List.map_append, List.nodup_append] at h
      intro hmem
      exact absurd (by simp : p.1 ∈ (p :: ps).map Prod.fst) (h.2.2 hmem)
    have hstep : dictInsert acc p.1 p.2 = acc ++ [p] := dictInsert_of_not_mem acc p.1 p.2 hk
    have hre : (acc ++ [p]) ++ ps = acc ++ p :: ps := by simp
    calc (p :: ps).foldl (fun d q => dictInsert d q.1 q.2) acc
        = ps.foldl (fun d q => dictInsert d q.1 q.2) (acc ++ [p]) := by
          simp [List.foldl_cons, hstep]
      _ = (acc ++ [p]) ++ ps := ih (acc ++ [p]) (by rw [hre]; exact h)
      _ = acc ++ p :: ps := hre

theorem dictOfList_eq_self (m : List (String × String))
    (h : (m.map Prod.fst).Nodup) : dictOfList m = m := by
  have := foldl_dictInsert_eq_append m [] (by simpa using h)
  simpa [dictOfList] using this

theorem splitEq_append (k r : List Char) (h : ('=' : Char) ∉ k) :
    splitEq (k ++ '=' :: r) = some (k, r) := by
  induction k with
  | nil => simp [splitEq]
  | cons c cs ih =>
    have hc : ¬(c = '=') := fun hc => h (by simp [hc])
    have hcs : ('=' : Char) ∉ cs := fun hm => h (List.mem_cons_of_mem c hm)
    simp [splitEq, hc, ih hcs]

theorem splitEq_eq_none (l : List Char) (h : ('=' : Char) ∉ l) : splitEq l = none := by
  induction l with
  | nil => rfl
  | cons c cs ih =>
    have hc : ¬(c = '=') := fun hc => h (by simp [hc])
    have hcs : ('=' : Char) ∉ cs := fun hm => h (List.mem_cons_of_mem c hm)
    simp [splitEq, hc, ih hcs]

theorem pyStripL_append_ws (l : List Char) (c : Char) (h : pyIsSpace c = true) :
    pyStripL (l ++ [c]) = pyStripL l := by
  simp [pyStripL, List.dropWhile, h]

theorem pyStrip_append_newline (v : String) : pyStrip (v ++ "\n") = pyStrip v := by
  unfold pyStrip
  rw [str_toList_append]
  have hn : ("\n" : String).toList = ['\n'] := rfl
  rw [hn]
  exact congrArg String.mk (pyStripL_append_ws v.toList '\n' (by decide))

theorem parseLine_split (key rest : String) (h : ('=' : Char) ∉ key.toList) :
    parseLine (key ++ "=" ++ rest) = some (key, pyStrip rest) := by
  unfold parseLine
  have ht : (key ++ "=" ++ rest).toList = key.toList ++ '=' :: rest.toList := by
    rw [str_toList_append, str_toList_append]
    simp
  rw [ht, splitEq_append key.toList rest.toList h]
  rfl

theorem parseLine_entry (k v : String) (hk : ('=' : Char) ∉ k.toList)
    (hv : pyStrip v = v) : parseLine (k ++ "=" ++ v ++ "\n") = some (k, v) := by
  rw [str_append_assoc (k ++ "=") v "\n", parseLine_split k (v ++ "\n") hk,
    pyStrip_append_newline, hv]

theorem parseAll_formatLines (m : List (String × String))
    (h : ∀ kv ∈ m, ('=' : Char) ∉ kv.1.toList ∧ pyStrip kv.2 = kv.2) :
    parseAll (formatLines m) = some m := by
  induction m with
  | nil => rfl
  | cons kv ms ih =>
    have h1 := h kv (List.mem_cons_self kv ms)
    have h2 : ∀ x ∈ ms, ('=' : Char) ∉ x.1.toList ∧ pyStrip x.2 = x.2 :=
      fun x hx => h x (List.mem_cons_of_mem kv hx)
    show parseAll ((kv.1 ++ "=" ++ kv.2 ++ "\n") :: formatLines ms) = some (kv :: ms)
    simp [parseAll, parseLine_entry kv.1 kv.2 h1.1 h1.2, ih h2]

theorem parseAll_eq_none_of_mem (lines : List String) (l : String)
    (hl : l ∈ lines) (h : parseLine l = none) : parseAll lines = none := by
  induction lines with
  | nil => cases hl
  | cons p ps ih =>
    rcases List.mem_cons.mp hl with rfl | hm
    · simp [parseAll, h]
    · cases hp : parseLine p <;> simp [parseAll, hp, ih hm]

/-! ### Claims about parsing and formatting -/

/-- C2 counterexample: the mapping `[("A", " 1")]` has unique keys and no `=`
or newline in any key or value, yet it does not round-trip: the value's
leading space is removed by python's `.strip()`, so
`parseLines (formatLines m)` yields `[("A", "1")] ≠ m`. The same happens for
Unicode whitespace: `[("A", " x")]` (a no-break space before the `x`)
round-trips to `[("A", "x")]`. -/
theorem roundtrip_fails_on_leading_space :
    (('=' : Char) ∉ "A".toList ∧ ('\n' : Char) ∉ "A".toList ∧
     ('=' : Char) ∉ " 1".toList ∧ ('\n' : Char) ∉ " 1".toList ∧
     (([("A", " 1")] : List (String × String)).map Prod.fst).Nodup) ∧
    parseLines (formatLines [("A", " 1")]) = some [("A", "1")] ∧
    parseLines (formatLines [("A", " 1")]) ≠ some [("A", " 1")] ∧
    parseLines (formatLines [("A", "\u00A0x")]) = some [("A", "x")] ∧
    parseLines (formatLines [("A", "\u00A0x")]) ≠ some [("A", "\u00A0x")] :=
  ⟨by decide, by decide, by decide, by decide, by decide⟩

/-- C2 (amended): for every key/value mapping whose keys are unique, in which
no key and no value contains `=` or a newline, and in which additionally no
value starts or ends with a whitespace character in python's `str.isspace()`
sense — ASCII whitespace, U+001C-U+001F, NEL, NBSP and the Unicode
space/line/paragraph separators, i.e. python `.strip()` leaves the value
unchanged — parsing the lines produced by formatting the mapping yields the
mapping back: `parseLines (formatLines m) = some m`. -/
theorem parse_format_roundtrip (m : List (String × String))
    (hnodup : (m.map Prod.fst).Nodup)
    (hok : ∀ kv ∈ m, ('=' : Char) ∉ kv.1.toList ∧ ('\n' : Char) ∉ kv.1.toList ∧
      ('=' : Char) ∉ kv.2.toList ∧ ('\n' : Char) ∉ kv.2.toList ∧ pyStrip kv.2 = kv.2) :
    parseLines (formatLines m) = some m := by
  unfold parseLines
  rw [parseAll_formatLines m (fun kv hm => ⟨(hok kv hm).1, (hok kv hm).2.2.2.2⟩)]
  simp [dictOfList_eq_self m hnodup]

/-- C2 witness: the round-trip theorem applied to `[("A", "1"), ("B", "2")]`. -/
theorem parse_format_roundtrip_witness :
    ((([("A", "1"), ("B", "2")] : List (String × String)).map Prod.fst).Nodup) ∧
    parseLines (formatLines [("A", "1"), ("B", "2")]) = some [("A", "1"), ("B", "2")] :=
  ⟨by decide, parse_format_roundtrip [("A", "1"), ("B", "2")] (by decide) (by decide)⟩

/-- C3 counterexample: on the line `"A= x"` the parse used by the `set` verb
yields the value `"x"`, not `" x"`: python's `.strip()` removes the leading
space, so spaces and tabs around the value are NOT preserved. Unicode
whitespace is removed as well: `"A= x"` (a no-break space after the `=`)
yields `"x"`, not `" x"`. -/
theorem parseLine_strips_spaces :
    parseLine "A= x" = some ("A", "x") ∧ parseLine "A= x" ≠ some ("A", " x") ∧
    parseLine "A=\u00A0x" = some ("A", "x") ∧
    parseLine "A=\u00A0x" ≠ some ("A", "\u00A0x") :=
  ⟨by decide, by decide, by decide, by decide⟩

/-- C3 (amended): for every input line containing `=`, the parse operation used
by the `set` verb maps the text left of the first `=` to the key, and maps to
the value the text right of the first `=` with ALL leading and trailing
whitespace stripped — whitespace in python's `str.isspace()` sense: spaces,
tabs, newlines, carriage returns, vertical tabs, form feeds, the information
separators U+001C-U+001F, NEL, NBSP and the Unicode space/line/paragraph
separators — not only the surrounding newline. -/
theorem parseLine_first_eq_strip (key rest : String) (h : ('=' : Char) ∉ key.toList) :
    parseLine (key ++ "=" ++ rest) = some (key, pyStrip rest) :=
  parseLine_split key rest h

/-- C3 witness: the amended theorem applied to the line `"KEY= v \n"`. -/
theorem parseLine_first_eq_strip_witness :
    (('=' : Char) ∉ "KEY".toList) ∧
    parseLine ("KEY" ++ "=" ++ " v \n") = some ("KEY", pyStrip " v \n") :=
  ⟨by decide, parseLine_first_eq_strip "KEY" " v \n" (by decide)⟩

/-- C7: for every input line with no `=` character, the parse operation used by
the `set` verb fails (the `IndexError` of `p.split("=", 1)[1]` modelled as
`none`), and any line list containing such a line parses to `none` overall:
the line is not skipped and contributes no mapping entry. -/
theorem parseLine_no_eq_fails (l : String) (h : ('=' : Char) ∉ l.toList) :
    parseLine l = none ∧ ∀ lines, l ∈ lines → parseLines lines = none := by
  have hp : parseLine l = none := by
    unfold parseLine
    rw [splitEq_eq_none l.toList h]
  refine ⟨hp, fun lines hm => ?_⟩
  unfold parseLines
  rw [parseAll_eq_none_of_mem lines l hm hp]
  rfl

/-- C7 witness: the theorem applied to the line `"ABC"` inside `["X=1", "ABC"]`. -/
theorem parseLine_no_eq_fails_witness :
    (('=' : Char) ∉ "ABC".toList) ∧ parseLine "ABC" = none ∧
    parseLines ["X=1", "ABC"] = none :=
  ⟨by decide, (parseLine_no_eq_fails "ABC" (by decide)).1,
    (parseLine_no_eq_fails "ABC" (by decide)).2 ["X=1", "ABC"] (by decide)⟩

/-- C9: for every mapping with unique keys, converting it to a field list (one
`{name, value, type := 0}` entry per key) and projecting the field list back to
a mapping reproduces the mapping exactly (keys, values and order). -/
theorem toMapping_toFieldList_roundtrip (m : List (String × String))
    (h : (m.map Prod.fst).Nodup) : toMapping (toFieldList m) = m := by
  unfold toMapping toFieldList
  rw [List.map_map]
  have hcomp : ((fun f : Field => (f.name, f.value)) ∘
      (fun kv : String × String => ({ name := kv.1, value := kv.2, type := 0 } : Field))) = id := by
    funext kv; rfl
  rw [hcomp, List.map_id]
  exact dictOfList_eq_self m h

/-- C9 witness: the round-trip theorem applied to `[("A", "1"), ("B", "2")]`. -/
theorem toMapping_toFieldList_roundtrip_witness :
    ((([("A", "1"), ("B", "2")] : List (String × String)).map Prod.fst).Nodup) ∧
    toMapping (toFieldList [("A", "1"), ("B", "2")]) = [("A", "1"), ("B", "2")] :=
  ⟨by decide, toMapping_toFieldList_roundtrip [("A", "1"), ("B", "2")] (by decide)⟩

/-! ### Concrete backends used by witnesses and counterexamples -/

def folder1 : Folder := { id := "F1", name := "prod" }

def folder2 : Folder := { id := "F2", name := "prod2" }

def item1 : Item :=
  { id := "id1", name := "db", folderId := "F1", type := 2,
    fields := [{ name := "OLD", value := "0", type := 0 }] }

def item2 : Item :=
  { id := "id2", name := "db", folderId := "F1", type := 2, fields := [] }

/-- A backend on which every search returns exactly one match. -/
def beOneItem : Backend :=
  { listFoldersRC := fun _ => 0, listFoldersOut := fun _ => some [folder1]
    listItemsRC := fun _ _ => 0, listItemsOut := fun _ _ => some [item1]
    encodeRC := 0, encodeOut := fun s => s, editRC := 0, createRC := 0 }

/-- A backend on which every search returns zero matches. -/
def beEmpty : Backend :=
  { listFoldersRC := fun _ => 0, listFoldersOut := fun _ => some []
    listItemsRC := fun _ _ => 0, listItemsOut := fun _ _ => some []
    encodeRC := 0, encodeOut := fun s => s, editRC := 0, createRC := 0 }

/-- A backend on which every search returns two matches. -/
def beTwoItems : Backend :=
  { listFoldersRC := fun _ => 0, listFoldersOut := fun _ => some [folder1, folder2]
    listItemsRC := fun _ _ => 0, listItemsOut := fun _ _ => some [item1, item2]
    encodeRC := 0, encodeOut := fun s => s, editRC := 0, createRC := 0 }

/-- A backend on which the list invocations exit non-zero. -/
def beFail : Backend :=
  { listFoldersRC := fun _ => 1, listFoldersOut := fun _ => some []
    listItemsRC := fun _ _ => 1, listItemsOut := fun _ _ => some []
    encodeRC := 0, encodeOut := fun s => s, editRC := 0, createRC := 0 }

/-- A backend with no matching item on which the `encode`, `edit` and `create`
invocations all exit non-zero. -/
def beSilent : Backend :=
  { listFoldersRC := fun _ => 0, listFoldersOut := fun _ => some []
    listItemsRC := fun _ _ => 0, listItemsOut := fun _ _ => some []
    encodeRC := 1, encodeOut := fun s => s, editRC := 1, createRC := 1 }

/-- A backend with exactly one matching item on which the `encode` and `edit`
invocations exit non-zero. -/
def beSilentEdit : Backend :=
  { listFoldersRC := fun _ => 0, listFoldersOut := fun _ => some [folder1]
    listItemsRC := fun _ _ => 0, listItemsOut := fun _ _ => some [item1]
    encodeRC := 1, encodeOut := fun s => s, editRC := 1, createRC := 0 }

/-! ### Claims about the vault client -/

/-- C5: for every folder-name or item-name search whose backend result list
(parsed from a zero-exit invocation) has length different from one,
`get_folder`/`get_item` fail with the ambiguity error, and they return the
single matched element exactly when the result list has length one. -/
theorem search_requires_unique (bw : BW) (be : Backend) (name : String) :
    (∀ folders, be.listFoldersRC name = 0 → be.listFoldersOut name = some folders →
      (folders.length ≠ 1 →
        bw.get_folder be name = .error (.ambiguousResult folders.length)) ∧
      (∀ f, folders = [f] → bw.get_folder be name = .ok f)) ∧
    (∀ items, be.listItemsRC bw.folder_id name = 0 →
      be.listItemsOut bw.folder_id name = some items →
      (items.length ≠ 1 →
        bw.get_item be name = .error (.ambiguousResult items.length)) ∧
      (∀ i, items = [i] → bw.get_item be name = .ok i)) := by
  constructor
  · intro folders h1 h2
    constructor
    · intro hlen
      cases folders with
      | nil => simp [BW.get_folder, h1, h2]
      | cons a t =>
        cases t with
        | nil => exact absurd rfl hlen
        | cons b t2 => simp [BW.get_folder, h1, h2]
    · intro f hf
      subst hf
      simp [BW.get_folder, h1, h2]
  · intro items h1 h2
    constructor
    · intro hlen
      cases items with
      | nil => simp [BW.get_item, h1, h2]
      | cons a t =>
        cases t with
        | nil => exact absurd rfl hlen
        | cons b t2 => simp [BW.get_item, h1, h2]
    · intro i hi
      subst hi
      simp [BW.get_item, h1, h2]

/-- C5 witness: a two-folder search is ambiguous; a one-item search returns
the item. -/
theorem search_requires_unique_witness :
    beTwoItems.listFoldersRC "prod" = 0 ∧
    beTwoItems.listFoldersOut "prod" = some [folder1, folder2] ∧
    (BW.mk "k" "F1").get_folder beTwoItems "prod" = .error (.ambiguousResult 2) ∧
    beOneItem.listItemsRC "F1" "db" = 0 ∧
    beOneItem.listItemsOut "F1" "db" = some [item1] ∧
    (BW.mk "k" "F1").get_item beOneItem "db" = .ok item1 :=
  ⟨rfl, rfl,
    ((search_requires_unique (BW.mk "k" "F1") beTwoItems "prod").1
      [folder1, folder2] rfl rfl).1 (by decide),
    rfl, rfl,
    ((search_requires_unique (BW.mk "k" "F1") beOneItem "db").2
      [item1] rfl rfl).2 item1 rfl⟩

/-- C6: `exists` returns `true` exactly when the item lookup succeeds with
exactly one matching item (zero exit status, well-formed output, singleton
list), and `false` on every kind of lookup failure: non-zero exit, malformed
output, zero matches or two or more matches. -/
theorem exists_iff_unique_match (bw : BW) (be : Backend) (name : String) :
    bw.exists be name = true ↔
      (be.listItemsRC bw.folder_id name = 0 ∧
        ∃ item, be.listItemsOut bw.folder_id name = some [item]) := by
  by_cases h1 : be.listItemsRC bw.folder_id name = 0
  · cases h2 : be.listItemsOut bw.folder_id name with
    | none => simp [BW.exists, BW.get_item, h1, h2]
    | some items =>
      cases items with
      | nil => simp [BW.exists, BW.get_item, h1, h2]
      | cons a t =>
        cases t with
        | nil => simp [BW.exists, BW.get_item, h1, h2]
        | cons b t2 => simp [BW.exists, BW.get_item, h1, h2]
  · simp [BW.exists, BW.get_item, h1]

/-- C1: `set_values` on a name whose lookup returns exactly one item submits an
edit of that item whose field list is fully replaced by the mapping (one plain
text field per key, old fields gone); on a name for which the existence check
is false it submits a create of a new secure-note item (type 2, secureNote
subtype 0) under the configured folder with exactly that field list. -/
theorem set_values_edits_or_creates (bw : BW) (be : Backend) (name : String)
    (values : List (String × String)) :
    (∀ item, be.listItemsRC bw.folder_id name = 0 →
      be.listItemsOut bw.folder_id name = some [item] →
      bw.set_values be name values =
        .ok [Action.edit item.id { item with fields := toFieldList values }]) ∧
    (bw.exists be name = false →
      bw.set_values be name values =
        .ok [Action.create
          { secureNote := { type := 0 }, object := "item", folderId := bw.folder_id,
            type := 2, name := name, fields := toFieldList values }]) := by
  constructor
  · intro item h1 h2
    have hget : bw.get_item be name = .ok item := by
      simp [BW.get_item, h1, h2]
    have hex : bw.exists be name = true := by
      simp [BW.exists, hget]
    simp [BW.set_values, hex, BW.update_values, hget]
  · intro hex
    simp [BW.set_values, hex]

/-- C1 witness: both branches at concrete backends — an existing item `item1`
is edited with its field list replaced, a missing item is created as a
secure note. -/
theorem set_values_edits_or_creates_witness :
    beOneItem.listItemsRC "F1" "db" = 0 ∧
    beOneItem.listItemsOut "F1" "db" = some [item1] ∧
    (BW.mk "k" "F1").set_values beOneItem "db" [("A", "1")] =
      .ok [Action.edit item1.id { item1 with fields := toFieldList [("A", "1")] }] ∧
    (BW.mk "k" "F1").exists beEmpty "db" = false ∧
    (BW.mk "k" "F1").set_values beEmpty "db" [("A", "1")] =
      .ok [Action.create
        { secureNote := { type := 0 }, object := "item", folderId := "F1",
          type := 2, name := "db", fields := toFieldList [("A", "1")] }] :=
  ⟨rfl, rfl,
    (set_values_edits_or_creates (BW.mk "k" "F1") beOneItem "db" [("A", "1")]).1
      item1 rfl rfl,
    rfl,
    (set_values_edits_or_creates (BW.mk "k" "F1") beEmpty "db" [("A", "1")]).2 rfl⟩

/-- C10: when the item lookup returns two or more matches, `set_values` does
not fail with an ambiguity error: `exists` collapses the ambiguous lookup to
`false`, so a create for a further secure-note item with the same name is
submitted instead of an edit of any existing one. -/
theorem set_values_ambiguous_creates_duplicate (bw : BW) (be : Backend)
    (name : String) (values : List (String × String)) (items : List Item)
    (h1 : be.listItemsRC bw.folder_id name = 0)
    (h2 : be.listItemsOut bw.folder_id name = some items)
    (h3 : 2 ≤ items.length) :
    bw.exists be name = false ∧
    bw.set_values be name values =
      .ok [Action.create
        { secureNote := { type := 0 }, object := "item", folderId := bw.folder_id,
          type := 2, name := name, fields := toFieldList values }] := by
  have hget : bw.get_item be name = .error (.ambiguousResult items.length) := by
    cases items with
    | nil => exact absurd h3 (by decide)
    | cons a t =>
      cases t with
      | nil => exact absurd h3 (by simp)
      | cons b t2 => simp [BW.get_item, h1, h2]
  have hex : bw.exists be name = false := by simp [BW.exists, hget]
  exact ⟨hex, by simp [BW.set_values, hex]⟩

/-- C10 witness: with two items named "db" in the folder, `set_values`
submits a create for a third. -/
theorem set_values_ambiguous_creates_duplicate_witness :
    beTwoItems.listItemsRC "F1" "db" = 0 ∧
    beTwoItems.listItemsOut "F1" "db" = some [item1, item2] ∧
    2 ≤ [item1, item2].length ∧
    (BW.mk "k" "F1").exists beTwoItems "db" = false ∧
    (BW.mk "k" "F1").set_values beTwoItems "db" [("A", "1")] =
      .ok [Action.create
        { secureNote := { type := 0 }, object := "item", folderId := "F1",
          type := 2, name := "db", fields := toFieldList [("A", "1")] }] :=
  ⟨rfl, rfl, by decide,
    (set_values_ambiguous_creates_duplicate (BW.mk "k" "F1") beTwoItems "db"
      [("A", "1")] [item1, item2] rfl rfl (by decide)).1,
    (set_values_ambiguous_creates_duplicate (BW.mk "k" "F1") beTwoItems "db"
      [("A", "1")] [item1, item2] rfl rfl (by decide)).2⟩

/-- C8: when the item lookup of the `get` verb returns zero matching items, the
verb fails with the (uncaught) ambiguity error and produces no write: neither
standard output nor a named file receives anything, since the output target is
only opened after a successful lookup. -/
theorem get_bw_no_write_on_not_found (bw : BW) (be : Backend)
    (itemname filename : String)
    (h1 : be.listItemsRC bw.folder_id itemname = 0)
    (h2 : be.listItemsOut bw.folder_id itemname = some []) :
    get_bw bw be itemname filename = .error (.ambiguousResult 0) ∧
    ∀ out, get_bw bw be itemname filename ≠ .ok out := by
  have hget : bw.get_item be itemname = .error (.ambiguousResult 0) := by
    simp [BW.get_item, h1, h2]
  have hmain : get_bw bw be itemname filename = .error (.ambiguousResult 0) := by
    simp [get_bw, BW.get_values, hget]
  exact ⟨hmain, fun out hc => by rw [hmain] at hc; cases hc⟩

/-- C8 witness: `get missing` against the zero-match backend, with a named
output file. -/
theorem get_bw_no_write_on_not_found_witness :
    beEmpty.listItemsRC "F1" "missing" = 0 ∧
    beEmpty.listItemsOut "F1" "missing" = some [] ∧
    get_bw (BW.mk "k" "F1") beEmpty "missing" "out.env" = .error (.ambiguousResult 0) :=
  ⟨rfl, rfl,
    (get_bw_no_write_on_not_found (BW.mk "k" "F1") beEmpty "missing" "out.env"
      rfl rfl).1⟩

/-- C4 counterexample: the `encode`, `edit` and `create` exit statuses are
never checked, so a failed edit, create or encode completes silently, contrary
to the claim. On `beSilent` the `encode`/`edit`/`create` statuses are all 1,
yet `set_values` completes with a successful create; on `beSilentEdit` the
`encode`/`edit` statuses are 1, yet `set_values` completes with a successful
edit. -/
theorem mutation_failure_silent :
    beSilent.encodeRC = 1 ∧ beSilent.editRC = 1 ∧ beSilent.createRC = 1 ∧
    (BW.mk "k" "F1").set_values beSilent "db" [("A", "1")] =
      .ok [Action.create
        { secureNote := { type := 0 }, object := "item", folderId := "F1",
          type := 2, name := "db", fields := toFieldList [("A", "1")] }] ∧
    beSilentEdit.encodeRC = 1 ∧ beSilentEdit.editRC = 1 ∧
    (BW.mk "k" "F1").set_values beSilentEdit "db" [("A", "1")] =
      .ok [Action.edit item1.id { item1 with fields := toFieldList [("A", "1")] }] :=
  ⟨rfl, rfl, rfl, rfl, rfl, rfl, rfl⟩

/-- C4 (amended): a non-zero exit status of the `list folders` or `list items`
invocation propagates as a failure (`check_returncode`), but the exit statuses
of the `encode`, `edit item` and `create item` invocations are ignored: the
result of `set_values` (and of `encode`) does not depend on them, so a failed
edit, create or encode completes silently. -/
theorem exit_status_handling (bw : BW) (be : Backend) (name : String)
    (values : List (String × String)) :
    ((be.listFoldersRC name ≠ 0 → bw.get_folder be name = .error .subprocessFailure) ∧
     (be.listItemsRC bw.folder_id name ≠ 0 →
       bw.get_item be name = .error .subprocessFailure)) ∧
    (∀ rcEncode rcEdit rcCreate : Nat,
      bw.set_values
          { be with encodeRC := rcEncode, editRC := rcEdit, createRC := rcCreate }
          name values = bw.set_values be name values ∧
      BW.encode bw { be with encodeRC := rcEncode, editRC := rcEdit, createRC := rcCreate } =
        BW.encode bw be) := by
  refine ⟨⟨fun h => ?_, fun h => ?_⟩, fun rcEncode rcEdit rcCreate => ⟨rfl, rfl⟩⟩
  · simp [BW.get_folder, h]
  · simp [BW.get_item, h]

/-- C4 witness: the amended theorem at a failing list backend, and at arbitrary
mutation exit statuses 7, 8, 9. -/
theorem exit_status_handling_witness :
    beFail.listFoldersRC "prod" ≠ 0 ∧
    (BW.mk "k" "F1").get_folder beFail "prod" = .error .subprocessFailure ∧
    beFail.listItemsRC "F1" "db" ≠ 0 ∧
    (BW.mk "k" "F1").get_item beFail "db" = .error .subprocessFailure ∧
    (BW.mk "k" "F1").set_values
        { beOneItem with encodeRC := 7, editRC := 8, createRC := 9 } "db" [("A", "1")] =
      (BW.mk "k" "F1").set_values beOneItem "db" [("A", "1")] :=
  ⟨by decide,
    (exit_status_handling (BW.mk "k" "F1") beFail "prod" []).1.1 (by decide),
    by decide,
    (exit_status_handling (BW.mk "k" "F1") beFail "db" []).1.2 (by decide),
    ((exit_status_handling (BW.mk "k" "F1") beOneItem "db" [("A", "1")]).2 7 8 9).1⟩

end BwEnv
